import Mathlib

/-!
Verification of the four-ai repository (a connect-four engine plus a
genetic-algorithm training loop for neural-network players).

Each Rust source construct used by the claims is embedded as an executable
Lean definition:

* `src/src/game.rs` — `Spot`, `Board`, `Board::check_four_consecutive`,
  `Board::check_win`, `Board::insert_top`;
* `src/src/ai/pool.rs` — `PoolProperties`, `Agent`, `Pool::mutate_crossover`,
  `Pool::get_fitness`, and the checkpoint/compare interval guards of
  `Pool::training_loop`;
* `src/src/ai/nn.rs` and `src/src/matrix.rs` — `Matrix`, `NN::new_rand`,
  `NN::forward`;
* `src/src/helpers.rs` — `get_max_generation`.

Machine integers are embedded as `Nat`/`Int` (the programs never reach the
wrap-around range on the inputs considered), `f32` weights as `ℚ` with the
random number generator and the floating-point activation functions passed
in as explicit function parameters (the claims settled here do not depend
on their values), and panics / divergence as `Option`/`Except` results.
-/

namespace FourAI

/-- `Spot` from `src/src/game.rs`: a tri-state board cell. -/
inductive Spot
  | EMPTY
  | RED
  | YELLOW
deriving DecidableEq, Repr

/-- `Board` from `src/src/game.rs`.  `positions` is indexed
`positions[column][row]` with 7 columns of 6 rows (row 0 at the top);
`highest_pieces[column]` is the row index of the lowest empty cell of the
column, `-1` when the column is full.  The Rust struct also stores the
constant field `dimensions = (6, 7)`, set by `Board::new` and never
mutated; it is inlined as the literals 6 and 7 below. -/
structure Board where
  positions : List (List Spot)
  highest_pieces : List Int
  moves : Nat
deriving DecidableEq, Repr

/-- `Board::new`. -/
def Board.new : Board :=
  ⟨List.replicate 7 (List.replicate 6 Spot.EMPTY), List.replicate 7 5, 0⟩

/-- Direct indexing `self.positions[x][y]`.  Rust panics out of bounds; all
uses below are in bounds for well-formed boards, and the `Spot.EMPTY`
default is never reached there. -/
def Board.spotAt (b : Board) (x y : Nat) : Spot :=
  (b.positions.getD x []).getD y Spot.EMPTY

/-- `Board::change_position`. -/
def Board.change_position (b : Board) (x y : Nat) (spot : Spot) : Board :=
  { b with positions := b.positions.set x ((b.positions.getD x []).set y spot) }

/-- Rust's `slice::windows(n)`: all contiguous sub-slices of length `n`
(empty when the slice is shorter than `n`). -/
def slidingWindows (n : Nat) : List α → List (List α)
  | [] => []
  | x :: xs =>
    if (x :: xs).length < n then []
    else (x :: xs).take n :: slidingWindows n xs

/-- The per-window test of `Board::check_four_consecutive`:
`arr.windows(2).all(|val| val[0] == val[1])`. -/
def window_all_equal (arr : List Spot) : Bool :=
  (slidingWindows 2 arr).all
    (fun w => w.getD 0 Spot.EMPTY == w.getD 1 Spot.EMPTY)

/-- `Board::check_four_consecutive` from `src/src/game.rs` (lines 128-145):
collect the head of every all-equal length-4 window, then report a winner
only when that collection is exactly one non-`EMPTY` spot (the Rust slice
pattern `[winner] if winner != Spot::EMPTY`). -/
def check_four_consecutive (pieces : List Spot) : Option Spot :=
  match (slidingWindows 4 pieces).filterMap
      (fun arr => if window_all_equal arr then some (arr.getD 0 Spot.EMPTY) else none) with
  | [winner] => if winner ≠ Spot.EMPTY then some winner else none
  | _ => none

/-- The `/` diagonal scan of `Board::check_win` (lines 172-202), with the
source's `isize` arithmetic carried out in `Int` and `as usize` casts as
`Int.toNat`.  `positions.get(..)` and the inner `.get(..)` are the Rust
checked accesses, so out-of-range cells are skipped by the `filter_map`. -/
def Board.diag_forward_pieces (b : Board) (column row : Nat) : List Spot :=
  let col_calc : Int := (column : Int) - (6 - 1 - (row : Int))
  let row_calc : Int := (row : Int)
  let col_calc2 : Int := if col_calc < 0 then 0 else col_calc
  let row_calc2 : Int := if col_calc < 0 then row_calc + col_calc + 2 else row_calc
  let pos_col : Nat := col_calc2.toNat
  let pos_row : Int := row_calc2 - (col_calc2 - (column : Int))
  let range : List Nat := if pos_row < 0 then [] else (List.range (pos_row.toNat + 1)).reverse
  range.filterMap (fun row_no =>
    (b.positions.get? (pos_col + row_no)).bind (fun col => col.get? (pos_row.toNat - row_no)))

/-- The `\` diagonal scan of `Board::check_win` (lines 204-233); all
arithmetic is on `usize` in the source and in-branch subtractions never
underflow for row < 6, matching Lean's truncated `Nat` subtraction. -/
def Board.diag_backward_pieces (b : Board) (column row : Nat) : List Spot :=
  let col_calc : Nat := (6 - 1 - row) + column
  let row_calc : Nat := if col_calc > 7 - 1 then row + (col_calc - 7 + 1) else row
  let col_calc2 : Nat := if col_calc > 7 - 1 then 7 - 1 else col_calc
  let pos_col : Nat := col_calc2
  let pos_row : Nat := 7 - 2 - (row_calc - row)
  (List.range (pos_row + 1)).filterMap (fun row_no =>
    if row_no ≤ pos_col ∧ row_no ≤ pos_row then
      (b.positions.get? (pos_col - row_no)).bind (fun col => col.get? (pos_row - row_no))
    else none)

/-- `Board::check_win` from `src/src/game.rs` (lines 147-236): horizontal,
vertical, `/` diagonal and `\` diagonal scans in order, first `Some` wins. -/
def Board.check_win (b : Board) (column row : Nat) : Option Spot :=
  match check_four_consecutive
      ((List.range 7).map (fun column_no => b.spotAt column_no row)) with
  | some winner => some winner
  | none =>
    match check_four_consecutive
        ((List.range 6).map (fun row_no => b.spotAt column row_no)) with
    | some winner => some winner
    | none =>
      match check_four_consecutive (b.diag_forward_pieces column row) with
      | some winner => some winner
      | none =>
        match check_four_consecutive (b.diag_backward_pieces column row) with
        | some winner => some winner
        | none => none

/-- `Board::insert_top` from `src/src/game.rs` (lines 238-250).  Returns the
updated board together with the Rust result pair `(applied, winner)`.
`6 * 7` is `self.dimensions.0 * self.dimensions.1`. -/
def Board.insert_top (b : Board) (column : Nat) (spot : Spot) :
    Board × (Bool × Option Spot) :=
  let highest : Int := b.highest_pieces.getD column (-1)
  if highest ≠ -1 then
    let b1 := b.change_position column highest.toNat spot
    let b2 : Board :=
      { b1 with
        highest_pieces := b1.highest_pieces.set column (highest - 1),
        moves := b1.moves + 1 }
    (b2, (true, b2.check_win column highest.toNat))
  else if b.moves ≥ 6 * 7 then (b, (true, some Spot.EMPTY))
  else (b, (false, none))

/-- Run a sequence of `insert_top` calls, returning the final board and the
list of `(applied, winner)` results in order. -/
def Board.playMoves (b : Board) : List (Nat × Spot) → Board × List (Bool × Option Spot)
  | [] => (b, [])
  | (c, s) :: rest =>
    let step := b.insert_top c s
    let next := step.1.playMoves rest
    (next.1, step.2 :: next.2)

section RepoTests
/-!
The repository's own `game_tests` replayed against the embedding, as a
faithfulness check of the `check_win` translation.
-/

open Spot

example :
    (Board.new.playMoves
      [(3, RED), (2, YELLOW), (2, RED), (2, YELLOW), (3, RED), (3, RED),
       (3, YELLOW), (4, RED), (4, RED), (4, RED), (4, RED)]).2 =
    (List.replicate 10 (true, (none : Option Spot)) ++ [(true, some RED)]) := by decide

example :
    (Board.new.playMoves
      [(0, RED), (0, RED), (1, RED), (1, YELLOW), (1, RED), (2, RED), (2, RED),
       (2, RED), (2, YELLOW), (3, YELLOW), (3, RED), (3, RED), (3, RED),
       (3, YELLOW), (0, YELLOW), (1, YELLOW), (2, YELLOW), (3, YELLOW)]).2 =
    (List.replicate 17 (true, (none : Option Spot)) ++ [(true, some YELLOW)]) := by decide

example :
    (Board.new.playMoves
      [(1, RED), (2, RED), (2, RED), (3, RED), (3, RED), (3, RED),
       (0, YELLOW), (1, YELLOW), (2, YELLOW), (3, YELLOW)]).2 =
    (List.replicate 9 (true, (none : Option Spot)) ++ [(true, some YELLOW)]) := by decide

example :
    (Board.new.playMoves
      [(5, RED), (4, RED), (4, RED), (3, RED), (3, RED), (3, RED),
       (6, YELLOW), (5, YELLOW), (4, YELLOW), (3, YELLOW)]).2 =
    (List.replicate 9 (true, (none : Option Spot)) ++ [(true, some YELLOW)]) := by decide

example :
    (Board.new.playMoves
      [(6, RED), (6, YELLOW), (6, RED), (6, YELLOW), (5, RED), (5, YELLOW),
       (5, RED), (5, YELLOW), (5, RED), (5, YELLOW), (4, RED), (4, YELLOW),
       (4, RED), (4, YELLOW), (4, RED), (4, YELLOW), (0, RED), (0, YELLOW),
       (0, RED), (0, YELLOW), (0, RED)]).2 =
    List.replicate 21 (true, (none : Option Spot)) := by decide

example :
    (Board.new.playMoves
      [(4, RED), (3, RED), (3, RED), (2, RED), (2, RED), (2, RED),
       (5, YELLOW), (4, YELLOW), (3, YELLOW), (2, YELLOW)]).2 =
    (List.replicate 9 (true, (none : Option Spot)) ++ [(true, some YELLOW)]) := by decide

example :
    (Board.new.playMoves
      [(6, RED), (6, RED), (5, YELLOW), (5, YELLOW), (5, RED), (4, RED),
       (4, YELLOW), (4, RED), (4, YELLOW), (3, RED), (3, YELLOW), (3, RED),
       (3, RED), (3, RED), (3, YELLOW), (4, YELLOW), (5, YELLOW), (6, YELLOW)]).2 =
    (List.replicate 17 (true, (none : Option Spot)) ++ [(true, some YELLOW)]) := by decide

example :
    (Board.new.playMoves [(0, RED), (0, RED), (0, RED), (0, RED)]).2 =
    (List.replicate 3 (true, (none : Option Spot)) ++ [(true, some RED)]) := by decide

example :
    (Board.new.playMoves [(0, RED), (0, YELLOW), (0, RED), (0, RED)]).2 =
    List.replicate 4 (true, (none : Option Spot)) := by decide

example :
    (Board.new.playMoves
      [(0, YELLOW), (0, RED), (0, RED), (0, RED), (0, RED)]).2 =
    (List.replicate 4 (true, (none : Option Spot)) ++ [(true, some RED)]) := by decide

example :
    (Board.new.playMoves [(0, RED), (1, YELLOW), (2, RED), (3, RED)]).2 =
    List.replicate 4 (true, (none : Option Spot)) := by decide

example :
    (Board.new.playMoves [(0, RED), (1, RED), (2, RED), (3, RED)]).2 =
    (List.replicate 3 (true, (none : Option Spot)) ++ [(true, some RED)]) := by decide

example :
    (Board.new.playMoves
      [(0, RED), (1, YELLOW), (2, RED), (3, YELLOW), (0, RED), (1, RED),
       (2, RED), (3, RED)]).2 =
    (List.replicate 7 (true, (none : Option Spot)) ++ [(true, some RED)]) := by decide

example :
    (Board.new.playMoves
      [(0, RED), (0, YELLOW), (0, RED), (0, RED), (0, YELLOW), (0, RED),
       (0, YELLOW)]).2 =
    (List.replicate 6 (true, (none : Option Spot)) ++ [(false, none)]) := by decide

end RepoTests

/-- Color pattern of a known drawn filling of the board: column `c`, `k`
pieces already below.  Columns 0-2 and 6 alternate starting with RED,
columns 3-5 alternate starting with YELLOW, so every line has at most
three equal consecutive cells. -/
def drawColor (c k : Nat) : Spot :=
  if c < 3 then (if k % 2 = 0 then Spot.RED else Spot.YELLOW)
  else if c < 6 then (if k % 2 = 0 then Spot.YELLOW else Spot.RED)
  else (if k % 2 = 0 then Spot.RED else Spot.YELLOW)

/-- 42 legal insertions (column by column, bottom up) that fill the board
without ever forming four in a row. -/
def drawSeq : List (Nat × Spot) :=
  (List.range 7).flatMap fun c => (List.range 6).map fun k => (c, drawColor c k)

/-- The completely filled board obtained from `drawSeq`. -/
def fullDrawBoard : Board := (Board.new.playMoves drawSeq).1

/-- `check_four_consecutive` never reports `EMPTY` as a winner (the slice
pattern carries the guard `winner != Spot::EMPTY`). -/
theorem check_four_consecutive_ne_empty (pieces : List Spot) :
    check_four_consecutive pieces ≠ some Spot.EMPTY := by
  unfold check_four_consecutive
  split
  · split
    · simp_all
    · simp
  · simp

/-- `check_win` never reports `EMPTY` as a winner. -/
theorem Board.check_win_ne_empty (b : Board) (column row : Nat) :
    b.check_win column row ≠ some Spot.EMPTY := by
  unfold Board.check_win
  split
  case _ h => intro hc; rw [hc] at h; exact check_four_consecutive_ne_empty _ h
  split
  case _ h => intro hc; rw [hc] at h; exact check_four_consecutive_ne_empty _ h
  split
  case _ h => intro hc; rw [hc] at h; exact check_four_consecutive_ne_empty _ h
  split
  case _ h => intro hc; rw [hc] at h; exact check_four_consecutive_ne_empty _ h
  simp

/-- A draw result `(true, some EMPTY)` is only ever produced by `insert_top`
on an already-full column of a board with at least 42 moves; an applied
insertion reports a real color or nothing. -/
theorem Board.insert_top_draw_iff_full (b : Board) (c : Nat) (s : Spot)
    (h : (b.insert_top c s).2.2 = some Spot.EMPTY) :
    b.highest_pieces.getD c (-1) = -1 ∧ 42 ≤ b.moves := by
  by_cases hh : b.highest_pieces.getD c (-1) = -1
  · refine ⟨hh, ?_⟩
    by_cases hm : b.moves ≥ 6 * 7
    · omega
    · exfalso
      simp only [Board.insert_top, if_neg (not_not_intro hh), if_neg hm] at h
      exact Option.noConfusion h
  · exfalso
    simp only [Board.insert_top, if_pos hh] at h
    exact Board.check_win_ne_empty _ _ _ h

/-- RED at the bottom of columns 0, 1, 3, 4, then RED dropped into column 2:
the final insertion fills the gap of `X X _ X X`. -/
def fiveSeq : List (Nat × Spot) :=
  [(0, Spot.RED), (1, Spot.RED), (3, Spot.RED), (4, Spot.RED), (2, Spot.RED)]

/-- C3: the claim requires a placement completing a run of four OR MORE to be
reported as a win, but filling the gap of `X X _ X X` (five RED in the bottom
row) is reported as no winner: the bottom row then holds two all-equal
length-4 windows, and `check_four_consecutive` only reports a win when its
collected list of window winners is the singleton `[winner]`, so the insertion
that creates five in a row yields `(true, none)`.  The last conjunct isolates
the cause on the scanned bottom row itself. -/
theorem c3_five_in_row_not_detected :
    (Board.new.playMoves fiveSeq).2 = List.replicate 5 (true, (none : Option Spot))
    ∧ ((List.range 5).map fun c => (Board.new.playMoves fiveSeq).1.spotAt c 5) =
        List.replicate 5 Spot.RED
    ∧ check_four_consecutive
        [Spot.RED, Spot.RED, Spot.RED, Spot.RED, Spot.RED, Spot.EMPTY, Spot.EMPTY] =
        none := by decide

set_option maxRecDepth 4000 in
/-- C4 counterexample: on a draw-free filling of the board, the 42nd
successful insertion itself returns `(applied, no winner)` — not the claimed
draw result `(applied, some EMPTY)`. -/
theorem c4_counterexample :
    ((Board.new.playMoves drawSeq).2.getD 41 (false, none)) = (true, (none : Option Spot))
    ∧ ((Board.new.playMoves drawSeq).2.getD 41 (false, none)) ≠
        (true, some Spot.EMPTY) := by decide

set_option maxRecDepth 4000 in
/-- C4 (amended): filling the board with 42 legal draw-free insertions yields
`(true, none)` on every insertion including the 42nd; the draw result
`(true, some EMPTY)` is produced by the NEXT `insert_top` call on the already
full board (and leaves the board unchanged), and in general a draw result
only arises when the addressed column is full and at least 42 moves have been
played — never earlier. -/
theorem c4_draw_after_board_full :
    (Board.new.playMoves drawSeq).2 = List.replicate 42 (true, (none : Option Spot))
    ∧ fullDrawBoard.insert_top 0 Spot.RED = (fullDrawBoard, (true, some Spot.EMPTY))
    ∧ ∀ (b : Board) (c : Nat) (s : Spot),
        (b.insert_top c s).2.2 = some Spot.EMPTY →
        b.highest_pieces.getD c (-1) = -1 ∧ 42 ≤ b.moves :=
  ⟨by decide, by decide, fun b c s h => Board.insert_top_draw_iff_full b c s h⟩

set_option maxRecDepth 4000 in
/-- C4 witness: the general draw characterisation applied to the concrete
full board. -/
theorem c4_witness :
    fullDrawBoard.highest_pieces.getD 0 (-1) = -1 ∧ 42 ≤ fullDrawBoard.moves :=
  c4_draw_after_board_full.2.2 fullDrawBoard 0 Spot.RED (by decide)

/-- C5 counterexample: inserting RED at columns 0, 1, 2, 3 in that order puts
four contiguous RED pieces on the bottom row, so the fourth insertion reports
winner RED — not `no winner` as claimed (the repository's own test
`horizontal_2` asserts the same outcome). -/
theorem c5_counterexample :
    ((Board.new.playMoves
        [(0, Spot.RED), (1, Spot.RED), (2, Spot.RED), (3, Spot.RED)]).2.getD 3
        (false, none)) = (true, some Spot.RED)
    ∧ ((Board.new.playMoves
        [(0, Spot.RED), (1, Spot.RED), (2, Spot.RED), (3, Spot.RED)]).2.getD 3
        (false, none)) ≠ (true, (none : Option Spot)) := by decide

/-- C5 (amended): inserting RED at columns 0, 1, 2, 3 in that order yields no
winner for the first three insertions and a RED horizontal win on the fourth. -/
theorem c5_horizontal_win :
    (Board.new.playMoves
        [(0, Spot.RED), (1, Spot.RED), (2, Spot.RED), (3, Spot.RED)]).2 =
      [(true, none), (true, none), (true, none), (true, some Spot.RED)] := by decide

set_option maxRecDepth 4000 in
/-- C6 counterexample: on the completely full board (column 0 holds 6 pieces,
42 moves played), `insert_top` into column 0 reports `applied = true` (the
draw signal), not the claimed "not applied" (`false`). -/
theorem c6_counterexample :
    fullDrawBoard.highest_pieces.getD 0 (-1) = -1
    ∧ (fullDrawBoard.insert_top 0 Spot.RED).2.1 = true := by decide

/-- C6 (amended): inserting into a full column leaves the board (positions,
move counter, fill heights) unchanged in every case; the result is
"not applied" `(false, none)` exactly when fewer than 42 moves have been
played, while with 42 or more moves (entirely full board) the result is the
applied draw signal `(true, some EMPTY)`. -/
theorem c6_column_full_rejection (b : Board) (c : Nat) (s : Spot)
    (h : b.highest_pieces.getD c (-1) = -1) :
    (b.insert_top c s).1 = b
    ∧ (b.moves < 42 → (b.insert_top c s).2 = (false, none))
    ∧ (42 ≤ b.moves → (b.insert_top c s).2 = (true, some Spot.EMPTY)) := by
  simp only [Board.insert_top, if_neg (not_not_intro h)]
  refine ⟨?_, ?_, ?_⟩
  · split <;> rfl
  · intro hm
    rw [if_neg (by omega)]
  · intro hm
    rw [if_pos (by omega)]

/-- C6 witness: a board whose single column is full and has 0 moves. -/
theorem c6_witness :
    ((Board.mk [] [-1] 0).insert_top 0 Spot.RED).1 = Board.mk [] [-1] 0
    ∧ ((Board.mk [] [-1] 0).insert_top 0 Spot.RED).2 = (false, none) :=
  ⟨(c6_column_full_rejection _ 0 Spot.RED (by decide)).1,
   (c6_column_full_rejection _ 0 Spot.RED (by decide)).2.1 (by decide)⟩

/-!
### Evolutionary pool — `src/src/ai/pool.rs`
-/

/-- `PoolProperties` restricted to the fields `Pool::mutate_crossover` and the
claims read.  `mutation_range`/`mutation_prob` are `f32` parameters consumed
only inside the RNG-driven `Player::mutate`, which is abstracted as the
`mutate` function parameter below; `structure`, `activations`, `generations`,
the intervals and `file_path` play no role in repopulation. -/
structure PoolProperties where
  surviving_amount : Nat
  crossover_size : Nat
  population_size : Nat
deriving Repr

/-- `Agent` from `src/src/ai/agent.rs`: a player policy paired with an
integer fitness accumulator. -/
structure Agent (α : Type) where
  player : α
  fitness : Int
deriving DecidableEq, Repr

instance [Inhabited α] : Inhabited (Agent α) := ⟨⟨default, 0⟩⟩

/-- The index pairs `(i, k)` traversed in order by the two nested `for` loops
of the `'crossover` loop. -/
def pairIndices (n : Nat) : List (Nat × Nat) :=
  (List.range n).flatMap fun i => (List.range n).map fun k => (i, k)

/-- The `'crossover` loop of `Pool::mutate_crossover` (pool.rs lines
166-178): for each pair `i ≠ k`, while the pool holds fewer than
`crossover_size` agents, push a clone of `new_pop[i]` (fitness included)
whose player is crossed with `new_pop[k]`'s player; once the bound is
reached, `break 'crossover` ends the whole loop. -/
def crossoverLoop [Inhabited α] (cross : α → α → α) (crossover_size : Nat)
    (new_pop : List (Agent α)) :
    List (Nat × Nat) → List (Agent α) → List (Agent α)
  | [], agents => agents
  | (i, k) :: rest, agents =>
    if i ≠ k then
      if agents.length < crossover_size then
        crossoverLoop cross crossover_size new_pop rest
          (agents ++
            [⟨cross (new_pop.getD i default).player (new_pop.getD k default).player,
              (new_pop.getD i default).fitness⟩])
      else agents
    else crossoverLoop cross crossover_size new_pop rest agents

/-- `Pool::mutate_crossover` (pool.rs lines 165-196).  After the
`'crossover` loop, the `'copy` loop reads
`for net in new_pop { if !(self.agents.len() >= population_size) { break 'copy; } push(net.clone()) }`
inside `loop { .. }`: with a non-empty `new_pop` it breaks at once — copying
no survivor — whenever the pool is still below `population_size`, and
otherwise pushes clones forever; the non-terminating cases (including an
empty `new_pop`, where the inner `for` body never runs) are modelled as
`none`.  The final loop mutates every pooled agent's player and resets its
fitness to 0.  The RNG-driven `Player::crossover`/`Player::mutate` are
abstracted as the deterministic `cross`/`mutate` parameters. -/
def mutate_crossover [Inhabited α] (props : PoolProperties)
    (cross : α → α → α) (mutate : α → α)
    (agents new_pop : List (Agent α)) : Option (List (Agent α)) :=
  let agents1 :=
    crossoverLoop cross props.crossover_size new_pop (pairIndices new_pop.length) agents
  if new_pop.isEmpty then none
  else if agents1.length < props.population_size then
    some (agents1.map fun a => ⟨mutate a.player, (0 : Int)⟩)
  else none

/-- C1: with survivors `⟨1,5⟩, ⟨2,7⟩` (players 1 and 2), `crossover_size = 1`
and `population_size = 4`, repopulation returns only the single crossover
product `⟨12, 0⟩`: the `'copy` loop's inverted break condition drops both
surviving parents, so neither survivor (fitness reset or not) appears in the
new population — elitism fails. -/
theorem c1_survivors_dropped :
    mutate_crossover ⟨2, 1, 4⟩ (fun a b => a * 10 + b) id []
        [⟨1, 5⟩, ⟨2, 7⟩] = some [⟨12, 0⟩]
    ∧ (⟨1, 0⟩ : Agent Nat) ∉ [(⟨12, 0⟩ : Agent Nat)]
    ∧ (⟨2, 0⟩ : Agent Nat) ∉ [(⟨12, 0⟩ : Agent Nat)] := by decide

/-- C2: with the CLI default configuration (surviving = 5,
crossover_size = 30, population_size = 200), repopulating from 5 survivors
yields a population of only `min(crossover_size, 5·4) = 20` agents — the
`'copy` refill loop never runs, so the population is not restored to
`population_size`. -/
theorem c2_population_not_refilled :
    (mutate_crossover ⟨5, 30, 200⟩ (fun a b => a * 10 + b) id []
        [⟨1, 0⟩, ⟨2, 0⟩, ⟨3, 0⟩, ⟨4, 0⟩, ⟨5, 0⟩]).map List.length = some 20
    ∧ (20 : Nat) ≠ 200 := by decide

/-- The two-entry score of one game in `Pool::get_fitness` (pool.rs lines
128-159) with `win_amount = 1`: the first component goes to the first-color
(RED) player, the second to the second-color (YELLOW) player. -/
def score_game (winner : Spot) : Int × Int :=
  match winner with
  | Spot.RED => (1, -1)
  | Spot.YELLOW => (-1, 1)
  | Spot.EMPTY => (0, 0)

/-- `Pool::get_fitness` (pool.rs lines 123-163): two games with colors
swapped; the outcome of one deterministic (seeded-policy) game is abstracted
as `play first second`, returning the winning color (`EMPTY` for a draw).
`move_fitness` is the literal 0 of the source. -/
def get_fitness (play : P → P → Spot) (player1 player2 : P) : Int × Int :=
  let r1 := score_game (play player1 player2)
  let r2 := score_game (play player2 player1)
  let move_fitness : Int := 0
  (r1.1 + r2.2 + move_fitness, r1.2 + r2.1 + move_fitness)

/-- C7: for deterministic policies and equal-and-opposite win/loss scoring,
the two fitness deltas of the color-swapped pairing sum to zero, i.e. A's
total is the negation of B's total, when neither game is a draw. -/
theorem c7_fitness_antisymmetric (P : Type) (play : P → P → Spot) (A B : P)
    (h1 : play A B ≠ Spot.EMPTY) (h2 : play B A ≠ Spot.EMPTY) :
    (get_fitness play A B).1 + (get_fitness play A B).2 = 0
    ∧ (get_fitness play A B).1 = -(get_fitness play A B).2 := by
  rcases hAB : play A B <;> rcases hBA : play B A <;>
    first
      | exact absurd hAB h1
      | exact absurd hBA h2
      | (constructor <;> simp [get_fitness, score_game, hAB, hBA])

/-- C7 witness: a concrete pair of policies where A wins as first color and
B loses as first color. -/
theorem c7_witness :
    (get_fitness (fun x _ => if x then Spot.RED else Spot.YELLOW) true false).1 =
      -((get_fitness (fun x _ => if x then Spot.RED else Spot.YELLOW) true false).2) :=
  (c7_fitness_antisymmetric Bool (fun x _ => if x then Spot.RED else Spot.YELLOW)
    true false (by decide) (by decide)).2

/-- The checkpoint/comparison gate of `Pool::training_loop` (pool.rs lines
243-246 for `save_interval`, lines 275-278 for `compare_interval`):
`interval >= 0 && generation != 0 && generation % (interval as usize) == 0`,
short-circuiting left to right.  Rust's `%` panics on a zero divisor,
modelled as `none`. -/
def interval_gate (interval : Int) (generation : Nat) : Option Bool :=
  if 0 ≤ interval then
    if generation ≠ 0 then
      if interval.toNat = 0 then none
      else some (generation % interval.toNat == 0)
    else some false
  else some false

/-- C10: with a zero interval the gate evaluates `generation % 0` and panics
for every generation `g ≥ 1`, while every negative or strictly positive
interval makes the gate total — even though the guard itself only requires
`interval >= 0`. -/
theorem c10_interval_zero_panics :
    (∀ g : Nat, 1 ≤ g → interval_gate 0 g = none)
    ∧ ∀ (i : Int) (g : Nat), i ≠ 0 → (interval_gate i g).isSome = true := by
  constructor
  · intro g hg
    unfold interval_gate
    rw [if_pos le_rfl, if_pos (by omega), if_pos (by decide)]
  · intro i g hi
    unfold interval_gate
    split
    · split
      · rw [if_neg (by omega)]
        rfl
      · rfl
    · rfl

/-- C10 witness: the default save interval 250 is safe; interval 0 panics at
generation 250. -/
theorem c10_witness :
    interval_gate 0 250 = none ∧ (interval_gate 250 250).isSome = true :=
  ⟨c10_interval_zero_panics.1 250 (by decide),
   c10_interval_zero_panics.2 250 250 (by decide)⟩

/-!
### Dense matrix and neural network — `src/src/matrix.rs`, `src/src/ai/nn.rs`

The `f32` scalar type `N` is embedded as `ℚ`; the random initializer and the
floating-point activation functions (`e^x` has no exact rational embedding)
are passed in as explicit function parameters.  The shape claims proved here
hold for every choice of those parameters.
-/

/-- `Matrix` from `src/src/matrix.rs`: a row-major value vector with explicit
`rows`/`cols`. -/
structure Matrix where
  values : List ℚ
  rows : Nat
  cols : Nat
deriving DecidableEq, Repr

/-- `Matrix::into_row` (despite the name, it builds a column: `rows = len`,
`cols = 1`). -/
def Matrix.into_row (vector : List ℚ) : Matrix :=
  ⟨vector, vector.length, 1⟩

/-- `Matrix::get`: `values[row * cols + col]` (checked here with a 0 default;
in-range in every use below). -/
def Matrix.get (m : Matrix) (row col : Nat) : ℚ :=
  m.values.getD (row * m.cols + col) 0

/-- `Matrix::push`: append one more row of values (the source
`debug_assert`s `values.len() == cols`). -/
def Matrix.push (m : Matrix) (vals : List ℚ) : Matrix :=
  ⟨m.values ++ vals, m.rows + 1, m.cols⟩

/-- `Matrix::map`: element-wise map, shape preserved. -/
def Matrix.map (m : Matrix) (f : ℚ → ℚ) : Matrix :=
  ⟨m.values.map f, m.rows, m.cols⟩

/-- `Mul for &Matrix` (matrix.rs lines 230-273): the result is allocated as
`alloca(self.rows, other.cols)` and filled by `gemm(1, A, B, 0)`, i.e. the
standard triple loop given in the source's own comment with
`m = self.cols`. -/
def Matrix.mul (a b : Matrix) : Matrix :=
  ⟨(List.range a.rows).flatMap fun i =>
      (List.range b.cols).map fun j =>
        (List.range a.cols).foldl (fun sum k => sum + a.get i k * b.get k j) 0,
    a.rows, b.cols⟩

/-- `Activation` from `src/src/ai/nn.rs`.  Its scalar function `as_fn` is
floating point and is abstracted as the `actFn` parameter of `NN.forward`. -/
inductive Activation
  | Sigmoid
  | ELU
  | RELU
deriving DecidableEq, Repr

/-- `NN` from `src/src/ai/nn.rs`. -/
structure NN where
  structure_ : List Nat
  activations : List Activation
  weights : List Matrix
deriving DecidableEq, Repr

/-- The weight-building loop of `NN::new_rand`:
`for i in 0..structure.len()-1 { push(from_rand(structure[i+1], structure[i] + 1)) }`,
i.e. one `(next, current + 1)` matrix per adjacent pair of layer widths.
`Matrix::from_rand` fills `rows * cols` values from the RNG, modelled by the
value stream `randFn layer idx`. -/
def NN.mk_weights (randFn : Nat → Nat → ℚ) (i : Nat) : List Nat → List Matrix
  | a :: b :: rest =>
    ⟨(List.range (b * (a + 1))).map (randFn i), b, a + 1⟩ ::
      NN.mk_weights randFn (i + 1) (b :: rest)
  | _ => []

/-- `NN::new_rand` (nn.rs lines 54-73).  The
`debug_assert_eq!(structure.len() - 1, activations.len())` check (a panic in
debug builds, the build in which the repository's tests run) is modelled as
a construction-time configuration error. -/
def NN.new_rand (structure_ : List Nat) (activations : List Activation)
    (randFn : Nat → Nat → ℚ) : Except String NN :=
  if structure_.length - 1 = activations.length then
    Except.ok ⟨structure_, activations, NN.mk_weights randFn 0 structure_⟩
  else Except.error "structure/activations length mismatch"

/-- One layer of `NN::forward`: append the bias row `[1]`, multiply by the
layer's weights, apply the activation element-wise. -/
def NN.layer_step (actFn : Activation → ℚ → ℚ) (activation : Matrix)
    (wa : Matrix × Activation) : Matrix :=
  (Matrix.mul wa.1 (activation.push [1])).map (actFn wa.2)

/-- `NN::forward` (nn.rs lines 75-85): fold `layer_step` over
`weights.iter().zip(&activations)` (zip truncates to the shorter list, as in
Rust) starting from the input column vector.  No shape check happens at
inference time. -/
def NN.forward (actFn : Activation → ℚ → ℚ) (nn : NN) (input : List ℚ) : Matrix :=
  (nn.weights.zip nn.activations).foldl (NN.layer_step actFn) (Matrix.into_row input)

/-- The column count of the running activation never changes during the
forward fold. -/
theorem forward_cols (actFn : Activation → ℚ → ℚ) :
    ∀ (l : List (Matrix × Activation)) (acc : Matrix),
      (l.foldl (NN.layer_step actFn) acc).cols = acc.cols := by
  intro l
  induction l with
  | nil => intro acc; rfl
  | cons x xs ih => intro acc; exact ih (NN.layer_step actFn acc x)

/-- The row count after folding the layers built from widths `head :: s` is
the last width of `s` (or the input's row count when there is no layer). -/
theorem forward_rows (actFn : Activation → ℚ → ℚ) (randFn : Nat → Nat → ℚ) :
    ∀ (s : List Nat) (head i : Nat) (acts : List Activation) (acc : Matrix),
      acts.length = s.length →
      (((NN.mk_weights randFn i (head :: s)).zip acts).foldl
          (NN.layer_step actFn) acc).rows = s.getLastD acc.rows := by
  intro s
  induction s with
  | nil =>
    intro head i acts acc hlen
    have : acts = [] := List.eq_nil_of_length_eq_zero hlen
    subst this
    rfl
  | cons b rest ih =>
    intro head i acts acc hlen
    match acts with
    | a :: acts' =>
      have hlen' : acts'.length = rest.length := by
        simpa using hlen
      simp only [NN.mk_weights, List.zip_cons_cons, List.foldl_cons]
      rw [ih b (i + 1) acts' (NN.layer_step actFn acc
            (⟨(List.range (b * (head + 1))).map (randFn i), b, head + 1⟩, a)) hlen']
      rw [List.getLastD_cons]
      rfl

/-- `getLastD` of a list ending in `x` is `x`. -/
theorem getLastD_append_singleton (x d : Nat) :
    ∀ l : List Nat, (l ++ [x]).getLastD d = x := by
  intro l
  induction l generalizing d with
  | nil => rfl
  | cons a l ih =>
    rw [List.cons_append, List.getLastD_cons]
    exact ih a

/-- C8: a network successfully constructed with structure `[42, …, 7]`
always produces a 7-row, 1-column output from `forward`, whatever the input
values, the random weights and the activation functions; and a mismatched
activation count is rejected with a configuration error by `new_rand` at
construction time (while `forward` itself performs no check at inference
time). -/
theorem c8_forward_shape :
    (∀ (mid : List Nat) (acts : List Activation) (randFn : Nat → Nat → ℚ)
        (actFn : Activation → ℚ → ℚ) (input : List ℚ) (net : NN),
      NN.new_rand (42 :: mid ++ [7]) acts randFn = Except.ok net →
      (net.forward actFn input).rows = 7 ∧ (net.forward actFn input).cols = 1)
    ∧ ∀ (s : List Nat) (acts : List Activation) (randFn : Nat → Nat → ℚ),
        s.length - 1 ≠ acts.length →
        ∃ e, NN.new_rand s acts randFn = Except.error e := by
  constructor
  · intro mid acts randFn actFn input net hok
    have hlen : (42 :: mid ++ [7]).length - 1 = acts.length := by
      by_contra hne
      rw [NN.new_rand, if_neg hne] at hok
      exact Except.noConfusion hok
    rw [NN.new_rand, if_pos hlen] at hok
    cases hok
    constructor
    · rw [NN.forward]
      dsimp only
      rw [List.cons_append]
      rw [forward_rows actFn randFn (mid ++ [7]) 42 0 acts (Matrix.into_row input)
            (by simpa using hlen.symm)]
      exact getLastD_append_singleton 7 _ mid
    · exact forward_cols actFn _ _
  · intro s acts randFn hne
    exact ⟨_, by rw [NN.new_rand, if_neg hne]⟩

/-- Concrete network: structure `[42, 7]`, one sigmoid layer, zero weights. -/
def zeroNet : NN :=
  ⟨[42, 7], [Activation.Sigmoid], NN.mk_weights (fun _ _ => 0) 0 [42, 7]⟩

/-- C8 witness: the shape invariant at the concrete `zeroNet` (including an
input that is not even 42 wide), and the construction-time rejection of a
3-layer structure with a single activation. -/
theorem c8_witness :
    ((zeroNet.forward (fun _ x => x) []).rows = 7
      ∧ (zeroNet.forward (fun _ x => x) []).cols = 1)
    ∧ ∃ e, NN.new_rand [42, 64, 7] [Activation.RELU] (fun _ _ => 0) =
        Except.error e :=
  ⟨c8_forward_shape.1 [] [Activation.Sigmoid] (fun _ _ => 0) (fun _ x => x) [] zeroNet rfl,
   c8_forward_shape.2 [42, 64, 7] [Activation.RELU] (fun _ _ => 0) (by decide)⟩

/-!
### Resume discovery — `src/src/helpers.rs`
-/

/-- Rust `str::split("_")` over the characters of a filename: the list of
(possibly empty) segments between underscores; always non-empty. -/
def splitOnUnderscore : List Char → List (List Char)
  | [] => [[]]
  | c :: cs =>
    let r := splitOnUnderscore cs
    if c = '_' then [] :: r else (c :: r.headD []) :: r.tail

/-- Rust `str::parse::<usize>`: an optional leading `+` sign followed by one
or more ASCII digits (`usize` overflow at ≥ 2^64 is not modelled; no claim
involves such values). -/
def parse_usize (s : List Char) : Option Nat :=
  let t := match s with | '+' :: rest => rest | _ => s
  if t.isEmpty then none
  else if t.all Char.isDigit then
    some (t.foldl (fun n c => n * 10 + (c.toNat - '0'.toNat)) 0)
  else none

/-- The sort key used by `get_max_generation` (helpers.rs lines 9-16):
`file_name().to_str()?.split("_").last()?.parse::<usize>().ok()` — the
substring after the last underscore parsed as an unsigned integer (file
names are taken to be valid UTF-8, so `to_str` succeeds, and `split` is
never empty, so `last` succeeds). -/
def generation_key (name : String) : Option Nat :=
  parse_usize ((splitOnUnderscore name.data).getLastD [])

/-- The derived `Ord` of Rust's `Option<usize>`: `None` below every
`Some`. -/
def optLe : Option Nat → Option Nat → Bool
  | none, _ => true
  | some _, none => false
  | some x, some y => x ≤ y

/-- One step of Rust's `Iterator::max_by_key`: keep the current maximum,
replacing it when the new element's key is greater OR EQUAL (ties resolve to
the last maximal element, as `max_by_key` documents). -/
def max_step (key : String → Option Nat) (acc : Option String) (x : String) :
    Option String :=
  match acc with
  | none => some x
  | some a => if optLe (key a) (key x) then some x else some a

/-- Rust `Iterator::max_by_key` over the directory entries. -/
def max_by_key (key : String → Option Nat) (files : List String) : Option String :=
  files.foldl (max_step key) none

/-- `get_max_generation` from `src/src/helpers.rs` as a function of the
parent directory's listing (the `fs::read_dir` call and its I/O error case
are outside the model; `files` is the list of entry names in iteration
order). -/
def get_max_generation (files : List String) : Option String :=
  max_by_key generation_key files

theorem optLe_refl (a : Option Nat) : optLe a a = true := by
  cases a <;> simp [optLe]

theorem optLe_total {a b : Option Nat} (h : optLe a b = false) :
    optLe b a = true := by
  cases a <;> cases b
  all_goals simp_all [optLe]
  all_goals omega

theorem optLe_trans {a b c : Option Nat} (h1 : optLe a b = true)
    (h2 : optLe b c = true) : optLe a c = true := by
  cases a <;> cases b <;> cases c
  all_goals simp_all [optLe]
  all_goals omega

theorem optLe_some_left {k : Nat} {b : Option Nat}
    (h : optLe (some k) b = true) : ∃ m, b = some m ∧ k ≤ m := by
  cases b <;> simp_all [optLe]

/-- Invariant of the `max_by_key` fold: starting from a current maximum `a`
it returns an element of the input (or `a` itself) whose key dominates the
keys of `a` and of every input element. -/
theorem max_step_fold (key : String → Option Nat) :
    ∀ (files : List String) (a : String),
      ∃ g, files.foldl (max_step key) (some a) = some g
        ∧ (g = a ∨ g ∈ files)
        ∧ optLe (key a) (key g) = true
        ∧ ∀ f ∈ files, optLe (key f) (key g) = true := by
  intro files
  induction files with
  | nil =>
    intro a
    exact ⟨a, rfl, Or.inl rfl, optLe_refl _, by simp⟩
  | cons f rest ih =>
    intro a
    by_cases hle : optLe (key a) (key f) = true
    · obtain ⟨g, hfold, hmem, hag, hall⟩ := ih f
      refine ⟨g, ?_, ?_, ?_, ?_⟩
      · rw [List.foldl_cons]
        rw [show max_step key (some a) f = some f by simp [max_step, hle]]
        exact hfold
      · rcases hmem with h | h
        · exact Or.inr (by simp [h])
        · exact Or.inr (List.mem_cons_of_mem _ h)
      · exact optLe_trans hle hag
      · intro f' hf'
        rcases List.mem_cons.mp hf' with h | h
        · rw [h]; exact hag
        · exact hall f' h
    · have hle' : optLe (key a) (key f) = false := by
        simpa using hle
      have hfa : optLe (key f) (key a) = true := optLe_total hle'
      obtain ⟨g, hfold, hmem, hag, hall⟩ := ih a
      refine ⟨g, ?_, ?_, ?_, ?_⟩
      · rw [List.foldl_cons]
        rw [show max_step key (some a) f = some a by simp [max_step, hle']]
        exact hfold
      · rcases hmem with h | h
        · exact Or.inl h
        · exact Or.inr (List.mem_cons_of_mem _ h)
      · exact hag
      · intro f' hf'
        rcases List.mem_cons.mp hf' with h | h
        · rw [h]; exact optLe_trans hfa hag
        · exact hall f' h

/-- C9 counterexample: a directory containing only `foo.txt` — a file with
no parsable generation suffix — still yields `Some("foo.txt")` from
`get_max_generation` (the key `None` is a valid `max_by_key` maximum), so
absence is NOT reported and training does not start fresh (in `Pool::start`
the subsequent `parse().unwrap()` on that name would panic). -/
theorem c9_counterexample :
    generation_key "foo.txt" = none
    ∧ get_max_generation ["foo.txt"] = some "foo.txt"
    ∧ get_max_generation ["foo.txt"] ≠ none := by
  refine ⟨rfl, rfl, by decide⟩

/-- C9 (amended): `get_max_generation` reports absence (`None`) exactly when
the parent directory's listing is empty; whenever some file has a parsable
suffix the returned file is one of the entries and its parsed suffix is
maximal among all parsable suffixes (entries without a parsable suffix rank
below every parsable one).  A non-empty directory with no parsable suffix
still returns one of its files, so "start fresh" is not triggered. -/
theorem c9_resume_discovery :
    (∀ files : List String, get_max_generation files = none ↔ files = [])
    ∧ ∀ (files : List String) (f : String) (n : Nat),
        f ∈ files → generation_key f = some n →
        ∃ g m, get_max_generation files = some g ∧ g ∈ files
          ∧ generation_key g = some m ∧ n ≤ m
          ∧ ∀ f' ∈ files, ∀ k, generation_key f' = some k → k ≤ m := by
  constructor
  · intro files
    constructor
    · intro hnone
      cases files with
      | nil => rfl
      | cons x rest =>
        exfalso
        obtain ⟨g, hfold, -, -, -⟩ := max_step_fold generation_key rest x
        rw [get_max_generation, max_by_key, List.foldl_cons,
          show max_step generation_key none x = some x from rfl, hfold] at hnone
        exact Option.noConfusion hnone
    · intro h
      rw [h]
      rfl
  · intro files f n hf hkey
    cases files with
    | nil => cases hf
    | cons x rest =>
      obtain ⟨g, hfold, hmem, hxg, hall⟩ := max_step_fold generation_key rest x
      have hget : get_max_generation (x :: rest) = some g := by
        rw [get_max_generation, max_by_key, List.foldl_cons,
          show max_step generation_key none x = some x from rfl, hfold]
      have hgmem : g ∈ x :: rest := by
        rcases hmem with h | h
        · simp [h]
        · exact List.mem_cons_of_mem _ h
      have hdom : ∀ f' ∈ x :: rest, optLe (generation_key f') (generation_key g) = true := by
        intro f' hf'
        rcases List.mem_cons.mp hf' with h | h
        · rw [h]; exact hxg
        · exact hall f' h
      obtain ⟨m, hgm, hnm⟩ := optLe_some_left (hkey ▸ hdom f hf)
      refine ⟨g, m, hget, hgmem, hgm, hnm, ?_⟩
      intro f' hf' k hk
      obtain ⟨m', hgm', hkm'⟩ := optLe_some_left (hk ▸ hdom f' hf')
      rw [hgm'] at hgm
      cases hgm
      exact hkm'

/-- C9 witness: among `gen_2`, `foo`, `gen_10` the file with the maximal
parsed suffix (10) is returned. -/
theorem c9_witness :
    ∃ g m, get_max_generation ["gen_2", "foo", "gen_10"] = some g
      ∧ g ∈ ["gen_2", "foo", "gen_10"] ∧ generation_key g = some m ∧ 2 ≤ m
      ∧ ∀ f' ∈ ["gen_2", "foo", "gen_10"], ∀ k,
          generation_key f' = some k → k ≤ m :=
  c9_resume_discovery.2 ["gen_2", "foo", "gen_10"] "gen_2" 2 (by decide) (by decide)

end FourAI
